import Mathlib

/-!
Verification of the MON100 premium tracker (`fetch_premium_data.py`).

Dates are modelled as integers (days), numeric values as rationals.
A missing value (pandas `NaN` / `NaT`) is modelled as `none`.
-/

/-- One observation of a time series: a calendar date and a value.
Mirrors one row of a single-column DataFrame indexed by date. -/
structure Point where
  date : Int
  val : Rat
deriving DecidableEq, Repr

/-- Maximum of a list of dates, `none` on the empty list
(pandas `Index.max()` which is `NaN` on an empty index). -/
def listMaxDate (l : List Int) : Option Int :=
  l.foldl (fun acc x =>
    match acc with
    | none => some x
    | some m => some (max m x)) none

/-- Minimum of a list of dates, `none` on the empty list
(pandas `Index.min()`). -/
def listMinDate (l : List Int) : Option Int :=
  l.foldl (fun acc x =>
    match acc with
    | none => some x
    | some m => some (min m x)) none

/-- `df.reindex(target, method='ffill')` evaluated at one target date `d`:
the value stored at the largest source date that is `<= d`, or `none`
when every source date lies after `d`.  Mirrors lines 164 and 168 of
`fetch_premium_data.py`. -/
def reindexFfill (src : List Point) (d : Int) : Option Rat :=
  match listMaxDate ((src.map (fun p => p.date)).filter (fun x => x ≤ d)) with
  | some m => (src.find? (fun p => p.date == m)).map (fun p => p.val)
  | none => none

/-- The `nav_date` loop (lines 177-181): mask the NAV index by
`date <= idx` and, when the mask is non-empty, take its last entry. -/
def navDateLookup (nav : List Point) (d : Int) : Option Int :=
  ((nav.filter (fun p => p.date ≤ d)).getLast?).map (fun p => p.date)

/-- Lookup of `usdinr_nav_day` (lines 184-191): `forex_all` is the forex
series reindexed with forward fill over the continuous daily calendar
`date_range(forex.index.min(), forex.index.max())`; the lookup succeeds
only when the queried date lies inside that calendar. -/
def usdinrNavDayLookup (forex : List Point) (x : Int) : Option Rat :=
  match listMinDate (forex.map (fun p => p.date)),
        listMaxDate (forex.map (fun p => p.date)) with
  | some lo, some hi =>
      if lo ≤ x ∧ x ≤ hi then reindexFfill forex x else none
  | _, _ => none

/-- One fully resolved row of the result DataFrame after
`dropna(subset=['price', 'nav', 'usdinr', 'usdinr_nav_day'])` and the
vectorised computations of lines 198 and 201. -/
structure AlignedRecord where
  trade_date : Int
  price : Rat
  nav : Rat
  nav_date : Int
  usdinr : Rat
  usdinr_nav_day : Rat
  adjusted_inav : Rat
  premium : Rat
deriving DecidableEq, Repr

/-- Processing of one trade date: the per-row content of
`calculate_premium` (lines 159-201).  The row survives `dropna` exactly
when the forward-filled `nav`, the forward-filled `usdinr` and the
NAV-day forex lookup all resolve; the adjusted iNAV and the premium are
then computed by the formulas of lines 198 and 201. -/
def alignDate (nav forex : List Point) (p : Point) : Option AlignedRecord :=
  match reindexFfill nav p.date, reindexFfill forex p.date,
        navDateLookup nav p.date with
  | some nv, some fv, some nd =>
      match usdinrNavDayLookup forex nd with
      | some fnv =>
          some { trade_date := p.date
                 price := p.val
                 nav := nv
                 nav_date := nd
                 usdinr := fv
                 usdinr_nav_day := fnv
                 adjusted_inav := nv * (fv / fnv)
                 premium := (p.val - nv * (fv / fnv)) / (nv * (fv / fnv)) * 100 }
      | none => none
  | _, _, _ => none

/-- `calculate_premium` (lines 137-205): the price series is the base;
every trade date is processed independently and rows with missing data
are dropped. -/
def calculate_premium (prices nav forex : List Point) : List AlignedRecord :=
  prices.filterMap (alignDate nav forex)

/-- The NAV actually published on date `x`: the value of the (unique, when
dates are strictly increasing) NAV observation carrying that exact date. -/
def navPublishedOn (nav : List Point) (x : Int) : Option Rat :=
  (nav.find? (fun p => p.date == x)).map (fun p => p.val)

/-- Strictly increasing dates: the ordering contract of §4.1 that the
fetchers guarantee (`sort_index` in `fetch_nav_data`, chronological
Yahoo history elsewhere). -/
abbrev DatesSorted (l : List Point) : Prop :=
  l.Pairwise (fun p q => p.date < q.date)

/-- Modelled from the spec: §4.2 step 2 resolves a forex rate by
forward-fill over a continuous daily calendar running from the global
minimum date to the global maximum date across all three input series,
each calendar date carrying the most recent rate observed on or before
it.  (This definition follows the spec's words; the source's own
resolution is `usdinrNavDayLookup` above, to be compared with it.) -/
def specResolveRate (prices nav forex : List Point) (x : Int) : Option Rat :=
  match listMinDate ((prices ++ nav ++ forex).map (fun p => p.date)),
        listMaxDate ((prices ++ nav ++ forex).map (fun p => p.date)) with
  | some lo, some hi =>
      if lo ≤ x ∧ x ≤ hi then
        match listMaxDate ((forex.map (fun p => p.date)).filter (fun y => y ≤ x)) with
        | some m => (forex.find? (fun p => p.date == m)).map (fun p => p.val)
        | none => none
      else none
  | _, _ => none

/-- Insertion of a rational into an ascending list, keeping it ascending. -/
def insertAsc (x : Rat) : List Rat → List Rat
  | [] => [x]
  | y :: ys => if x ≤ y then x :: y :: ys else y :: insertAsc x ys

/-- Ascending sort of a list of rationals (the sorting numpy performs
before taking medians and quantiles). -/
def sortAsc (l : List Rat) : List Rat :=
  l.foldr insertAsc []

/-- Minimum of a list of rationals, `none` on the empty list
(`Series.min()`, which is `NaN` on an empty series). -/
def seriesMin (l : List Rat) : Option Rat :=
  l.foldl (fun acc x =>
    match acc with
    | none => some x
    | some m => some (min m x)) none

/-- Maximum of a list of rationals, `none` on the empty list
(`Series.max()`). -/
def seriesMax (l : List Rat) : Option Rat :=
  l.foldl (fun acc x =>
    match acc with
    | none => some x
    | some m => some (max m x)) none

/-- `Series.mean()`: arithmetic mean, `NaN` (here `none`) on the empty
series. -/
def seriesMean (l : List Rat) : Option Rat :=
  if l.isEmpty then none else some (l.sum / (l.length : Rat))

/-- `Series.median()`: middle order statistic, or the average of the two
middle order statistics for an even length; `NaN` on the empty series. -/
def seriesMedian (l : List Rat) : Option Rat :=
  if l.isEmpty then none
  else
    let s := sortAsc l
    let n := s.length
    if n % 2 = 1 then some (s.getD (n / 2) 0)
    else some ((s.getD (n / 2 - 1) 0 + s.getD (n / 2) 0) / 2)

/-- `Series.quantile(q)` with the default linear interpolation between
order statistics: position `q * (n - 1)` in the sorted data, value
interpolated between the two neighbouring order statistics. -/
def seriesQuantile (l : List Rat) (q : Rat) : Option Rat :=
  if l.isEmpty then none
  else
    let s := sortAsc l
    let pos : Rat := q * ((s.length : Rat) - 1)
    let i : Nat := (⌊pos⌋).toNat
    let lower := s.getD i 0
    let upper := s.getD (i + 1) lower
    some (lower + (pos - (⌊pos⌋ : Rat)) * (upper - lower))

/-- The sum of squared deviations from the mean, the numerator of the
variance. -/
def sqDevSum (l : List Rat) : Rat :=
  match seriesMean l with
  | some m => (l.map (fun x => (x - m) ^ 2)).sum
  | none => 0

/-- `Series.std()` with the pandas default `ddof = 1`: the sample
standard deviation, `sqrt (Σ (x - mean)² / (n - 1))`; `NaN` (here
`none`) when fewer than two observations are present, since the `n - 1`
denominator is then zero. -/
noncomputable def seriesStd (l : List Rat) : Option Real :=
  if 2 ≤ l.length then
    some (Real.sqrt ((sqDevSum l / ((l.length : Rat) - 1) : Rat) : Real))
  else none

/-- Python 3 `round` on exact values: round half to even.  Returns the
integer nearest to `x`, ties going to the even integer. -/
def pyRoundInt (x : Rat) : Int :=
  let f : Int := ⌊x⌋
  let r : Rat := x - (f : Rat)
  if r < 1 / 2 then f
  else if 1 / 2 < r then f + 1
  else if 2 ∣ f then f else f + 1

/-- `round(x, 2)` on exact values. -/
def round2 (x : Rat) : Rat :=
  (pyRoundInt (x * 100) : Rat) / 100

/-- `round(x, 4)` on exact values. -/
def round4 (x : Rat) : Rat :=
  (pyRoundInt (x * 10000) : Rat) / 10000

/-- Round half to even on a real number (used for the standard
deviation, whose exact value is irrational in general). -/
noncomputable def pyRoundIntR (x : Real) : Int :=
  let f : Int := ⌊x⌋
  let r : Real := x - (f : Real)
  if r < 1 / 2 then f
  else if 1 / 2 < r then f + 1
  else if 2 ∣ f then f else f + 1

/-- `round(x, 2)` on a real number. -/
noncomputable def round2R (x : Real) : Real :=
  (pyRoundIntR (x * 100) : Real) / 100

/-- The dictionary returned by `calculate_statistics` (lines 218-227).
Each statistic is `none` when pandas would produce `NaN` (or, for
`current`, the explicit `None` of line 226). -/
structure StatsSummary where
  min : Option Rat
  max : Option Rat
  average : Option Rat
  median : Option Rat
  p25 : Option Rat
  p75 : Option Rat
  std : Option Real
  current : Option Rat

/-- `calculate_statistics` (lines 208-227): every statistic of the
premium series, each rounded to two decimal places; `current` is the
last element when the series is non-empty and `None` otherwise. -/
noncomputable def calculate_statistics (premiums : List Rat) : StatsSummary :=
  { min := (seriesMin premiums).map round2
    max := (seriesMax premiums).map round2
    average := (seriesMean premiums).map round2
    median := (seriesMedian premiums).map round2
    p25 := (seriesQuantile premiums (1 / 4)).map round2
    p75 := (seriesQuantile premiums (3 / 4)).map round2
    std := (seriesStd premiums).map round2R
    current := (premiums.getLast?).map round2 }

/-- The JSON object assembled by `save_to_json` (lines 241-251), minus
the wall-clock `last_updated` field. -/
structure JsonOutput where
  dates : List Int
  premiums : List Rat
  prices : List Rat
  navs : List Rat
  adjusted_inavs : List Rat
  usdinr : List Rat
  stats : StatsSummary
  data_points : Nat

/-- `save_to_json` (lines 230-254): each column of the result DataFrame
serialised in row order, premiums/prices/navs/adjusted iNAVs rounded to
2 decimals, forex rates to 4, and `data_points = len(df)`. -/
def save_to_json (df : List AlignedRecord) (stats : StatsSummary) : JsonOutput :=
  { dates := df.map (fun r => r.trade_date)
    premiums := df.map (fun r => round2 r.premium)
    prices := df.map (fun r => round2 r.price)
    navs := df.map (fun r => round2 r.nav)
    adjusted_inavs := df.map (fun r => round2 r.adjusted_inav)
    usdinr := df.map (fun r => round4 r.usdinr)
    stats := stats
    data_points := df.length }

/-! ### Helper lemmas about the fold-based maxima and last elements -/

theorem foldlOptMax (xs : List Int) (x : Int) :
    xs.foldl (fun acc y =>
      match acc with
      | none => some y
      | some m => some (max m y)) (some x) = some (xs.foldl max x) := by
  induction xs generalizing x with
  | nil => rfl
  | cons y ys ih => exact ih (max x y)

theorem listMaxDate_cons (x : Int) (xs : List Int) :
    listMaxDate (x :: xs) = some (xs.foldl max x) :=
  foldlOptMax xs x

theorem listMaxDate_eq_none_iff (l : List Int) :
    listMaxDate l = none ↔ l = [] := by
  cases l with
  | nil => simp [listMaxDate]
  | cons x xs => simp [listMaxDate_cons]

theorem le_foldlMax (xs : List Int) (a : Int) : a ≤ xs.foldl max a := by
  induction xs generalizing a with
  | nil => exact le_refl a
  | cons y ys ih => exact le_trans (le_max_left a y) (ih (max a y))

theorem mem_le_foldlMax (xs : List Int) (a : Int) :
    ∀ x ∈ xs, x ≤ xs.foldl max a := by
  induction xs generalizing a with
  | nil => intro x hx; cases hx
  | cons y ys ih =>
    intro x hx
    cases hx with
    | head => exact le_trans (le_max_right a y) (le_foldlMax ys (max a y))
    | tail _ h => exact ih (max a y) x h

theorem foldlMax_mem (xs : List Int) (a : Int) :
    xs.foldl max a = a ∨ xs.foldl max a ∈ xs := by
  induction xs generalizing a with
  | nil => exact Or.inl rfl
  | cons y ys ih =>
    rcases ih (max a y) with h | h
    · rcases max_choice a y with hm | hm
      · exact Or.inl (by rw [List.foldl_cons, h, hm])
      · exact Or.inr (by rw [List.foldl_cons, h, hm]; exact List.mem_cons_self y ys)
    · exact Or.inr (List.mem_cons_of_mem y h)

theorem listMaxDate_spec (l : List Int) (m : Int) (h : listMaxDate l = some m) :
    m ∈ l ∧ ∀ x ∈ l, x ≤ m := by
  cases l with
  | nil => simp [listMaxDate] at h
  | cons x xs =>
    rw [listMaxDate_cons] at h
    have hm : m = xs.foldl max x := by exact (Option.some.inj h).symm
    subst hm
    constructor
    · rcases foldlMax_mem xs x with h1 | h1
      · rw [h1]; exact List.mem_cons_self x xs
      · exact List.mem_cons_of_mem x h1
    · intro y hy
      cases hy with
      | head => exact le_foldlMax xs x
      | tail _ h2 => exact mem_le_foldlMax xs x y h2

theorem getLastSome_mem {α : Type} : ∀ {l : List α} {q : α}, l.getLast? = some q → q ∈ l := by
  intro l
  induction l with
  | nil => intro q h; simp at h
  | cons a t ih =>
    intro q h
    cases t with
    | nil =>
      simp [List.getLast?] at h
      simp [h]
    | cons b t2 =>
      rw [List.getLast?_cons_cons] at h
      exact List.mem_cons_of_mem a (ih h)

/-! ### Sorted-index lemmas -/

theorem foldlMax_of_sorted :
    ∀ (t : List Point) (a : Point),
      (a :: t).Pairwise (fun p q => p.date < q.date) →
      ((t.map (fun p => p.date)).foldl max a.date) =
        ((a :: t).getLast ((by simp) : a :: t ≠ [])).date := by
  intro t
  induction t with
  | nil => intro a _; rfl
  | cons b t2 ih =>
    intro a h
    have hab : a.date < b.date := (List.pairwise_cons.mp h).1 b (List.mem_cons_self b t2)
    have htail : (b :: t2).Pairwise (fun p q => p.date < q.date) :=
      (List.pairwise_cons.mp h).2
    have h1 : ((b :: t2).map (fun p => p.date)).foldl max a.date =
        (t2.map (fun p => p.date)).foldl max b.date := by
      simp only [List.map_cons, List.foldl_cons]
      rw [max_eq_right (le_of_lt hab)]
    rw [h1, ih b htail]
    simp [List.getLast_cons]

theorem listMaxDate_map_of_sorted (l : List Point)
    (h : l.Pairwise (fun p q => p.date < q.date)) :
    listMaxDate (l.map (fun p => p.date)) = (l.getLast?).map (fun p => p.date) := by
  cases l with
  | nil => rfl
  | cons a t =>
    rw [List.map_cons, listMaxDate_cons, foldlMax_of_sorted t a h]
    rw [List.getLast?_eq_getLast (a :: t) (by simp)]
    rfl

/-! ### Characterisation of the forward-fill lookups -/

theorem reindexFfill_val_eq {src : List Point} {d m : Int}
    (h1 : listMaxDate ((src.map (fun p => p.date)).filter (fun x => x ≤ d)) = some m) :
    reindexFfill src d = (src.find? (fun p => p.date == m)).map (fun p => p.val) := by
  unfold reindexFfill
  rw [h1]

theorem reindexFfill_eq_some {src : List Point} {d : Int} {v : Rat}
    (h : reindexFfill src d = some v) :
    ∃ q ∈ src, q.date ≤ d ∧ q.val = v ∧
      ∀ q' ∈ src, q'.date ≤ d → q'.date ≤ q.date := by
  rcases h1 : listMaxDate ((src.map (fun p => p.date)).filter (fun x => x ≤ d)) with
    _ | m
  · rw [reindexFfill, h1] at h; cases h
  · rw [reindexFfill_val_eq h1] at h
    obtain ⟨hmem, hmax⟩ := listMaxDate_spec _ _ h1
    obtain ⟨hm1, hm2⟩ := List.mem_filter.mp hmem
    have hmd : m ≤ d := by simpa using hm2
    rcases h2 : src.find? (fun p => p.date == m) with _ | q
    · rw [h2] at h; cases h
    · have hq : q.date = m := by simpa using List.find?_some h2
      have hqmem : q ∈ src := List.mem_of_find?_eq_some h2
      rw [h2] at h
      refine ⟨q, hqmem, hq ▸ hmd, by simpa using h, ?_⟩
      intro q' hq' hq'd
      rw [hq]
      exact hmax q'.date (List.mem_filter.mpr ⟨List.mem_map.mpr ⟨q', hq', rfl⟩, by simpa⟩)

theorem reindexFfill_eq_none_iff (src : List Point) (d : Int) :
    reindexFfill src d = none ↔ ∀ q ∈ src, ¬ q.date ≤ d := by
  rcases h1 : listMaxDate ((src.map (fun p => p.date)).filter (fun x => x ≤ d)) with
    _ | m
  · have hval : reindexFfill src d = none := by rw [reindexFfill, h1]
    rw [hval]
    simp only [true_iff]
    rw [listMaxDate_eq_none_iff] at h1
    intro q hq hqd
    have : q.date ∈ (src.map (fun p => p.date)).filter (fun x => x ≤ d) :=
      List.mem_filter.mpr ⟨List.mem_map.mpr ⟨q, hq, rfl⟩, by simpa⟩
    rw [h1] at this
    cases this
  · rw [reindexFfill_val_eq h1]
    obtain ⟨hmem, _⟩ := listMaxDate_spec _ _ h1
    obtain ⟨hm1, hm2⟩ := List.mem_filter.mp hmem
    obtain ⟨a, ha, had⟩ := List.mem_map.mp hm1
    have hfind : (src.find? (fun p => p.date == m)).isSome = true := by
      rw [List.find?_isSome]
      exact ⟨a, ha, by simp [had]⟩
    rcases h2 : src.find? (fun p => p.date == m) with _ | q
    · rw [h2] at hfind; cases hfind
    · rw [h2]
      constructor
      · intro hc; exact (Option.some_ne_none _ hc).elim
      · intro hall
        exact absurd (show a.date ≤ d by rw [had]; simpa using hm2) (hall a ha)

theorem navDateLookup_eq_none_iff (nav : List Point) (d : Int) :
    navDateLookup nav d = none ↔ ∀ q ∈ nav, ¬ q.date ≤ d := by
  unfold navDateLookup
  rw [Option.map_eq_none', List.getLast?_eq_none_iff, List.filter_eq_nil_iff]
  constructor
  · intro h q hq hqd; exact h q hq (by simpa)
  · intro h q hq hqd; exact h q hq (by simpa using hqd)

/-! ### Inversion of `alignDate` -/

theorem alignDate_eq (nav forex : List Point) (p : Point) :
    alignDate nav forex p =
      (reindexFfill nav p.date).bind (fun nv =>
        (reindexFfill forex p.date).bind (fun fv =>
          (navDateLookup nav p.date).bind (fun nd =>
            (usdinrNavDayLookup forex nd).map (fun fnv =>
              { trade_date := p.date, price := p.val, nav := nv, nav_date := nd,
                usdinr := fv, usdinr_nav_day := fnv,
                adjusted_inav := nv * (fv / fnv),
                premium := (p.val - nv * (fv / fnv)) /
                  (nv * (fv / fnv)) * 100 })))) := by
  unfold alignDate
  rcases reindexFfill nav p.date with _ | nv <;>
    rcases reindexFfill forex p.date with _ | fv <;>
      rcases navDateLookup nav p.date with _ | nd <;>
        try rfl
  simp only [Option.some_bind]
  rcases usdinrNavDayLookup forex nd with _ | fnv <;> rfl

theorem alignDate_eq_some_iff {nav forex : List Point} {p : Point} {r : AlignedRecord} :
    alignDate nav forex p = some r ↔
      ∃ nv fv nd fnv,
        reindexFfill nav p.date = some nv ∧
        reindexFfill forex p.date = some fv ∧
        navDateLookup nav p.date = some nd ∧
        usdinrNavDayLookup forex nd = some fnv ∧
        r = { trade_date := p.date, price := p.val, nav := nv, nav_date := nd,
              usdinr := fv, usdinr_nav_day := fnv,
              adjusted_inav := nv * (fv / fnv),
              premium := (p.val - nv * (fv / fnv)) / (nv * (fv / fnv)) * 100 } := by
  rw [alignDate_eq]
  simp only [Option.bind_eq_some, Option.map_eq_some']
  constructor
  · rintro ⟨nv, hnv, fv, hfv, nd, hnd, fnv, hfnv, hr⟩
    exact ⟨nv, fv, nd, fnv, hnv, hfv, hnd, hfnv, hr.symm⟩
  · rintro ⟨nv, fv, nd, fnv, hnv, hfv, hnd, hfnv, hr⟩
    exact ⟨nv, hnv, fv, hfv, nd, hnd, fnv, hfnv, hr.symm⟩

theorem alignDate_eq_none_iff (nav forex : List Point) (p : Point) :
    alignDate nav forex p = none ↔
      reindexFfill nav p.date = none ∨
      reindexFfill forex p.date = none ∨
      (navDateLookup nav p.date).bind (usdinrNavDayLookup forex) = none := by
  rw [alignDate_eq]
  rcases reindexFfill nav p.date with _ | nv
  · simp
  · rcases reindexFfill forex p.date with _ | fv
    · simp
    · rcases navDateLookup nav p.date with _ | nd
      · simp
      · rcases h4 : usdinrNavDayLookup forex nd with _ | fnv
        · simp [h4]
        · simp [h4]

/-! ### Consistency of the two NAV computations on sorted input -/

theorem filter_dates_comm (l : List Point) (d : Int) :
    (l.map (fun p => p.date)).filter (fun x => x ≤ d) =
      (l.filter (fun p => p.date ≤ d)).map (fun p => p.date) := by
  rw [List.filter_map]
  rfl

theorem reindexFfill_navPublished {nav : List Point} (h : DatesSorted nav)
    {d nd : Int} (hnd : navDateLookup nav d = some nd) :
    reindexFfill nav d = navPublishedOn nav nd := by
  unfold navDateLookup at hnd
  rcases h2 : (nav.filter (fun p => p.date ≤ d)).getLast? with _ | q
  · rw [h2] at hnd; cases hnd
  · rw [h2] at hnd
    have hql : q.date = nd := Option.some.inj hnd
    have hsf : (nav.filter (fun p => p.date ≤ d)).Pairwise
        (fun p q => p.date < q.date) :=
      List.Pairwise.sublist (List.filter_sublist nav) h
    have hmax : listMaxDate ((nav.map (fun p => p.date)).filter (fun x => x ≤ d)) =
        some q.date := by
      rw [filter_dates_comm, listMaxDate_map_of_sorted _ hsf, h2]
      rfl
    rw [reindexFfill_val_eq hmax, hql]
    rfl

theorem navDateLookup_spec {nav : List Point} (h : DatesSorted nav) {d nd : Int}
    (hnd : navDateLookup nav d = some nd) :
    (∃ q ∈ nav, q.date = nd) ∧ nd ≤ d ∧
      ∀ q ∈ nav, q.date ≤ d → q.date ≤ nd := by
  unfold navDateLookup at hnd
  rcases h2 : (nav.filter (fun p => p.date ≤ d)).getLast? with _ | q
  · rw [h2] at hnd; cases hnd
  · rw [h2] at hnd
    have hql : q.date = nd := Option.some.inj hnd
    have hqf : q ∈ nav.filter (fun p => p.date ≤ d) := getLastSome_mem h2
    obtain ⟨hqm, hqd⟩ := List.mem_filter.mp hqf
    have hsf : (nav.filter (fun p => p.date ≤ d)).Pairwise
        (fun p q => p.date < q.date) :=
      List.Pairwise.sublist (List.filter_sublist nav) h
    have hmax : listMaxDate ((nav.map (fun p => p.date)).filter (fun x => x ≤ d)) =
        some q.date := by
      rw [filter_dates_comm, listMaxDate_map_of_sorted _ hsf, h2]
      rfl
    obtain ⟨_, hall⟩ := listMaxDate_spec _ _ hmax
    refine ⟨⟨q, hqm, hql⟩, hql ▸ (by simpa using hqd), ?_⟩
    intro q' hq' hq'd
    rw [← hql]
    exact hall q'.date
      (List.mem_filter.mpr ⟨List.mem_map.mpr ⟨q', hq', rfl⟩, by simpa⟩)

/-! ### Characterisation of the NAV-day forex lookup -/

theorem usdinrNavDayLookup_eq_some {forex : List Point} {x : Int} {v : Rat}
    (h : usdinrNavDayLookup forex x = some v) :
    ∃ lo hi, listMinDate (forex.map (fun p => p.date)) = some lo ∧
      listMaxDate (forex.map (fun p => p.date)) = some hi ∧
      lo ≤ x ∧ x ≤ hi ∧ reindexFfill forex x = some v := by
  rcases h1 : listMinDate (forex.map (fun p => p.date)) with _ | lo <;>
    rcases h2 : listMaxDate (forex.map (fun p => p.date)) with _ | hi
  · have hval : usdinrNavDayLookup forex x = none := by
      unfold usdinrNavDayLookup; rw [h1, h2]
    exact Option.noConfusion (hval.symm.trans h)
  · have hval : usdinrNavDayLookup forex x = none := by
      unfold usdinrNavDayLookup; rw [h1, h2]
    exact Option.noConfusion (hval.symm.trans h)
  · have hval : usdinrNavDayLookup forex x = none := by
      unfold usdinrNavDayLookup; rw [h1, h2]
    exact Option.noConfusion (hval.symm.trans h)
  · have hval : usdinrNavDayLookup forex x =
        if lo ≤ x ∧ x ≤ hi then reindexFfill forex x else none := by
      unfold usdinrNavDayLookup; rw [h1, h2]
    rw [hval] at h
    by_cases hcond : lo ≤ x ∧ x ≤ hi
    · rw [if_pos hcond] at h
      exact ⟨lo, hi, h1, h2, hcond.1, hcond.2, h⟩
    · rw [if_neg hcond] at h
      exact Option.noConfusion h

/-! ### Concrete evaluations shared by the witnesses -/

theorem alignDateExample1 :
    alignDate [Point.mk 2 50] [Point.mk 1 80, Point.mk 3 84] (Point.mk 3 105) =
      some (AlignedRecord.mk 3 105 50 2 84 80 (105 / 2) 100) := by
  rw [alignDate_eq]
  have h1 : reindexFfill [Point.mk 2 50] (Point.mk 3 105).date = some 50 := by decide
  have h2 : reindexFfill [Point.mk 1 80, Point.mk 3 84] (Point.mk 3 105).date = some 84 := by
    decide
  have h3 : navDateLookup [Point.mk 2 50] (Point.mk 3 105).date = some 2 := by decide
  have h4 : usdinrNavDayLookup [Point.mk 1 80, Point.mk 3 84] 2 = some 80 := by decide
  rw [h1, h2, h3]
  simp only [Option.some_bind]
  rw [h4]
  simp only [Option.map_some', Option.some.injEq, AlignedRecord.mk.injEq]
  norm_num

theorem alignDateExample0 :
    alignDate [Point.mk 2 50] [Point.mk 1 80, Point.mk 3 84] (Point.mk 1 100) = none := by
  decide

theorem calcPremiumExample1 :
    calculate_premium [Point.mk 3 105] [Point.mk 2 50] [Point.mk 1 80, Point.mk 3 84] =
      [AlignedRecord.mk 3 105 50 2 84 80 (105 / 2) 100] := by
  simp only [calculate_premium, List.filterMap_cons, List.filterMap_nil, alignDateExample1]

theorem calcPremiumExample2 :
    calculate_premium [Point.mk 1 100, Point.mk 3 105] [Point.mk 2 50]
        [Point.mk 1 80, Point.mk 3 84] =
      [AlignedRecord.mk 3 105 50 2 84 80 (105 / 2) 100] := by
  simp only [calculate_premium, List.filterMap_cons, List.filterMap_nil,
    alignDateExample0, alignDateExample1]

/-! ### Claim theorems -/

/-- C1: every record emitted by `calculate_premium` carries
`adjusted_value = nav * (rate_today / rate_nav_date)` and
`premium_pct = (price - adjusted_value) / adjusted_value * 100` (exactly,
in rational arithmetic). -/
theorem premium_and_adjustment_formulas (prices nav forex : List Point)
    (r : AlignedRecord) (hr : r ∈ calculate_premium prices nav forex) :
    r.adjusted_inav = r.nav * (r.usdinr / r.usdinr_nav_day) ∧
    r.premium = (r.price - r.adjusted_inav) / r.adjusted_inav * 100 := by
  obtain ⟨p, _, hsome⟩ := List.mem_filterMap.mp hr
  obtain ⟨nv, fv, nd, fnv, _, _, _, _, hrec⟩ := alignDate_eq_some_iff.mp hsome
  subst hrec
  exact ⟨rfl, rfl⟩

theorem premium_and_adjustment_formulas_witness :
    (AlignedRecord.mk 3 105 50 2 84 80 (105 / 2) 100).adjusted_inav =
        (AlignedRecord.mk 3 105 50 2 84 80 (105 / 2) 100).nav *
          ((AlignedRecord.mk 3 105 50 2 84 80 (105 / 2) 100).usdinr /
            (AlignedRecord.mk 3 105 50 2 84 80 (105 / 2) 100).usdinr_nav_day) ∧
      (AlignedRecord.mk 3 105 50 2 84 80 (105 / 2) 100).premium =
        ((AlignedRecord.mk 3 105 50 2 84 80 (105 / 2) 100).price -
            (AlignedRecord.mk 3 105 50 2 84 80 (105 / 2) 100).adjusted_inav) /
          (AlignedRecord.mk 3 105 50 2 84 80 (105 / 2) 100).adjusted_inav * 100 :=
  premium_and_adjustment_formulas [⟨3, 105⟩] [⟨2, 50⟩] [⟨1, 80⟩, ⟨3, 84⟩]
    (AlignedRecord.mk 3 105 50 2 84 80 (105 / 2) 100)
    (by simp [calcPremiumExample1])

/-- C10: on every emitted row the forward-fill-reindexed `nav` column
agrees with the NAV actually published on that row's separately computed
`nav_date` (the two independent computations are mutually consistent),
provided the NAV index is strictly increasing as the fetcher guarantees. -/
theorem nav_column_matches_nav_date (prices nav forex : List Point)
    (hs : DatesSorted nav) (r : AlignedRecord)
    (hr : r ∈ calculate_premium prices nav forex) :
    navPublishedOn nav r.nav_date = some r.nav := by
  obtain ⟨p, _, hsome⟩ := List.mem_filterMap.mp hr
  obtain ⟨nv, fv, nd, fnv, hnv, _, hnd, _, hrec⟩ := alignDate_eq_some_iff.mp hsome
  subst hrec
  rw [← reindexFfill_navPublished hs hnd]
  exact hnv

theorem nav_column_matches_nav_date_witness :
    navPublishedOn [Point.mk 2 50] 2 = some 50 :=
  nav_column_matches_nav_date [⟨3, 105⟩] [⟨2, 50⟩] [⟨1, 80⟩, ⟨3, 84⟩]
    (by decide) (AlignedRecord.mk 3 105 50 2 84 80 (105 / 2) 100)
    (by simp [calcPremiumExample1])

/-- C5: on every emitted record, `nav_date` is the latest NAV observation
date not after the trade date (so `nav_date <= trade_date`); and a trade
date with no NAV observation on or before it never produces a record. -/
theorem nav_date_latest_on_or_before (prices nav forex : List Point)
    (hs : DatesSorted nav) :
    (∀ r ∈ calculate_premium prices nav forex,
        r.nav_date ≤ r.trade_date ∧ (∃ q ∈ nav, q.date = r.nav_date) ∧
        ∀ q ∈ nav, q.date ≤ r.trade_date → q.date ≤ r.nav_date) ∧
    (∀ p ∈ prices, (∀ q ∈ nav, ¬ q.date ≤ p.date) →
        ∀ r ∈ calculate_premium prices nav forex, r.trade_date ≠ p.date) := by
  constructor
  · intro r hr
    obtain ⟨p, _, hsome⟩ := List.mem_filterMap.mp hr
    obtain ⟨nv, fv, nd, fnv, _, _, hnd, _, hrec⟩ := alignDate_eq_some_iff.mp hsome
    subst hrec
    obtain ⟨hex, hle, hmaxi⟩ := navDateLookup_spec hs hnd
    exact ⟨hle, hex, hmaxi⟩
  · intro p _ hnone r hr heq
    obtain ⟨p', hp', hsome⟩ := List.mem_filterMap.mp hr
    obtain ⟨nv, fv, nd, fnv, _, _, hnd, _, hrec⟩ := alignDate_eq_some_iff.mp hsome
    have htd : r.trade_date = p'.date := by rw [hrec]
    rw [htd] at heq
    have hnone' : navDateLookup nav p'.date = none := by
      rw [navDateLookup_eq_none_iff]
      intro q hq
      have hq2 := hnone q hq
      rw [← heq] at hq2
      exact hq2
    exact Option.noConfusion (hnone'.symm.trans hnd)

theorem nav_date_latest_on_or_before_witness :
    ((AlignedRecord.mk 3 105 50 2 84 80 (105 / 2) 100).nav_date ≤
        (AlignedRecord.mk 3 105 50 2 84 80 (105 / 2) 100).trade_date) ∧
      ∀ r ∈ calculate_premium [Point.mk 1 100, Point.mk 3 105] [Point.mk 2 50]
          [Point.mk 1 80, Point.mk 3 84], r.trade_date ≠ (1 : Int) :=
  ⟨((nav_date_latest_on_or_before [⟨1, 100⟩, ⟨3, 105⟩] [⟨2, 50⟩]
        [⟨1, 80⟩, ⟨3, 84⟩] (by decide)).1
      (AlignedRecord.mk 3 105 50 2 84 80 (105 / 2) 100)
      (by simp [calcPremiumExample2])).1,
    fun r hr =>
      (nav_date_latest_on_or_before [⟨1, 100⟩, ⟨3, 105⟩] [⟨2, 50⟩]
          [⟨1, 80⟩, ⟨3, 84⟩] (by decide)).2 ⟨1, 100⟩ (by decide) (by decide) r hr⟩

/-- C6: trade dates are processed independently: the output never exceeds
the price series in length, and any date whose own lookups resolve
contributes its record to the output regardless of the other dates. -/
theorem rows_skipped_independently (prices nav forex : List Point) :
    (calculate_premium prices nav forex).length ≤ prices.length ∧
    ∀ p ∈ prices, ∀ r, alignDate nav forex p = some r →
      r ∈ calculate_premium prices nav forex :=
  ⟨List.length_filterMap_le _ _,
    fun p hp r hr => List.mem_filterMap.mpr ⟨p, hp, hr⟩⟩

theorem rows_skipped_independently_witness :
    (calculate_premium [Point.mk 1 100, Point.mk 3 105] [Point.mk 2 50]
        [Point.mk 1 80, Point.mk 3 84]).length ≤ 2 ∧
      (AlignedRecord.mk 3 105 50 2 84 80 (105 / 2) 100) ∈
        calculate_premium [Point.mk 1 100, Point.mk 3 105] [Point.mk 2 50]
          [Point.mk 1 80, Point.mk 3 84] :=
  ⟨(rows_skipped_independently [⟨1, 100⟩, ⟨3, 105⟩] [⟨2, 50⟩]
      [⟨1, 80⟩, ⟨3, 84⟩]).1,
    (rows_skipped_independently [⟨1, 100⟩, ⟨3, 105⟩] [⟨2, 50⟩]
        [⟨1, 80⟩, ⟨3, 84⟩]).2 ⟨3, 105⟩ (by decide) _ alignDateExample1⟩

/-- C2 counterexample: with prices = {day 10}, NAV = {day 10} and a forex
observation only on day 5, trade date 10 has a resolved NAV date (10),
and forward-fill over the spec's global calendar resolves the rate on
day 10 to 80; but the source's NAV-day lookup is bounded by the forex
series' own last date, returns nothing, and the day is dropped. -/
theorem forex_calendar_counterexample :
    navDateLookup [Point.mk 10 50] 10 = some 10 ∧
    specResolveRate [Point.mk 10 100] [Point.mk 10 50] [Point.mk 5 80] 10 = some 80 ∧
    usdinrNavDayLookup [Point.mk 5 80] 10 = none ∧
    calculate_premium [Point.mk 10 100] [Point.mk 10 50] [Point.mk 5 80] = [] := by
  refine ⟨by decide, by decide, by decide, ?_⟩
  have h0 : alignDate [Point.mk 10 50] [Point.mk 5 80] (Point.mk 10 100) = none := by
    decide
  simp only [calculate_premium, List.filterMap_cons, List.filterMap_nil, h0]

/-- C2 amended: on every emitted record the trade-day rate is the most
recent forex observation on or before the trade date (plain forward
fill, no interpolation), and the NAV-day rate is the most recent forex
observation on or before the NAV date, but resolved only inside the
calendar spanning the forex series' own minimum to maximum date (not the
global span of all three series): a NAV date outside that span is
unresolved and its trade date is skipped. -/
theorem forex_resolution_amended (prices nav forex : List Point)
    (r : AlignedRecord) (hr : r ∈ calculate_premium prices nav forex) :
    (∃ q ∈ forex, q.date ≤ r.trade_date ∧ r.usdinr = q.val ∧
        ∀ q' ∈ forex, q'.date ≤ r.trade_date → q'.date ≤ q.date) ∧
    (∃ q ∈ forex, q.date ≤ r.nav_date ∧ r.usdinr_nav_day = q.val ∧
        ∀ q' ∈ forex, q'.date ≤ r.nav_date → q'.date ≤ q.date) ∧
    (∃ lo hi, listMinDate (forex.map (fun p => p.date)) = some lo ∧
        listMaxDate (forex.map (fun p => p.date)) = some hi ∧
        lo ≤ r.nav_date ∧ r.nav_date ≤ hi) := by
  obtain ⟨p, _, hsome⟩ := List.mem_filterMap.mp hr
  obtain ⟨nv, fv, nd, fnv, _, hfv, _, hfnv, hrec⟩ := alignDate_eq_some_iff.mp hsome
  subst hrec
  obtain ⟨lo, hi, hlo, hhi, hlox, hxhi, hff⟩ := usdinrNavDayLookup_eq_some hfnv
  refine ⟨?_, ?_, lo, hi, hlo, hhi, hlox, hxhi⟩
  · obtain ⟨q, hq, hqd, hqv, hqmax⟩ := reindexFfill_eq_some hfv
    exact ⟨q, hq, hqd, hqv.symm, hqmax⟩
  · obtain ⟨q, hq, hqd, hqv, hqmax⟩ := reindexFfill_eq_some hff
    exact ⟨q, hq, hqd, hqv.symm, hqmax⟩

theorem forex_resolution_amended_witness :
    ∃ q ∈ [Point.mk 1 83, Point.mk 5 (167 / 2)],
      q.date ≤ (AlignedRecord.mk 3 100 50 2 83 83 50 100).trade_date ∧
      (AlignedRecord.mk 3 100 50 2 83 83 50 100).usdinr = q.val ∧
      ∀ q' ∈ [Point.mk 1 83, Point.mk 5 (167 / 2)],
        q'.date ≤ (AlignedRecord.mk 3 100 50 2 83 83 50 100).trade_date →
          q'.date ≤ q.date :=
  (forex_resolution_amended [⟨3, 100⟩] [⟨2, 50⟩] [⟨1, 83⟩, ⟨5, 167 / 2⟩]
      (AlignedRecord.mk 3 100 50 2 83 83 50 100)
      (by
        have h1 : alignDate [Point.mk 2 50] [Point.mk 1 83, Point.mk 5 (167 / 2)]
            (Point.mk 3 100) =
              some (AlignedRecord.mk 3 100 50 2 83 83 50 100) := by
          rw [alignDate_eq]
          have e1 : reindexFfill [Point.mk 2 50] (Point.mk 3 100).date = some 50 := by
            decide
          have e2 : reindexFfill [Point.mk 1 83, Point.mk 5 (167 / 2)]
              (Point.mk 3 100).date = some 83 := by decide
          have e3 : navDateLookup [Point.mk 2 50] (Point.mk 3 100).date = some 2 := by
            decide
          have e4 : usdinrNavDayLookup [Point.mk 1 83, Point.mk 5 (167 / 2)] 2 =
              some 83 := by decide
          rw [e1, e2, e3]
          simp only [Option.some_bind]
          rw [e4]
          simp only [Option.map_some', Option.some.injEq, AlignedRecord.mk.injEq]
          norm_num
        simp [calculate_premium, List.filterMap_cons, List.filterMap_nil, h1])).1

/-- C3 counterexample: a forex rate of zero on the NAV day is not dropped
by `dropna` (only missing values are), so a record with
`rate_at_nav_date = 0` is emitted and the forex adjustment divides by
zero. -/
theorem zero_rate_counterexample :
    (calculate_premium [Point.mk 10 100] [Point.mk 5 50] [Point.mk 5 0]).map
        (fun r => r.usdinr_nav_day) = [0] ∧
    (calculate_premium [Point.mk 10 100] [Point.mk 5 50] [Point.mk 5 0]).length = 1 := by
  have h1 : alignDate [Point.mk 5 50] [Point.mk 5 0] (Point.mk 10 100) =
      some (AlignedRecord.mk 10 100 50 5 0 0 (50 * (0 / 0))
        ((100 - 50 * (0 / 0)) / (50 * (0 / 0)) * 100)) := by
    rw [alignDate_eq]
    have e1 : reindexFfill [Point.mk 5 50] (Point.mk 10 100).date = some 50 := by decide
    have e2 : reindexFfill [Point.mk 5 0] (Point.mk 10 100).date = some 0 := by decide
    have e3 : navDateLookup [Point.mk 5 50] (Point.mk 10 100).date = some 5 := by decide
    have e4 : usdinrNavDayLookup [Point.mk 5 0] 5 = some 0 := by decide
    rw [e1, e2, e3]
    simp only [Option.some_bind]
    rw [e4]
    simp only [Option.map_some']
  constructor <;>
    simp [calculate_premium, List.filterMap_cons, List.filterMap_nil, h1]

/-- C3 amended: a trade date is skipped exactly when one of its lookups
is missing — the forward-filled NAV, the forward-filled trade-day rate,
or the NAV-day rate; a zero NAV-day rate is not missing and is not
guarded against, so it does not cause a skip. -/
theorem skip_exactly_on_missing_lookups (nav forex : List Point) (p : Point) :
    alignDate nav forex p = none ↔
      reindexFfill nav p.date = none ∨
      reindexFfill forex p.date = none ∨
      (navDateLookup nav p.date).bind (usdinrNavDayLookup forex) = none :=
  alignDate_eq_none_iff nav forex p

/-- Rounding to two decimals sends zero to zero. -/
theorem round2R_zero : round2R 0 = 0 := by
  unfold round2R pyRoundIntR
  norm_num

/-- The mean of a constant series is that constant. -/
theorem series_mean_replicate (c : Rat) (n : Nat) (h : 1 ≤ n) :
    seriesMean (List.replicate n c) = some c := by
  unfold seriesMean
  have hne : (List.replicate n c).isEmpty = false := by
    cases n with
    | zero => omega
    | succ k => simp [List.replicate_succ]
  rw [hne]
  simp only [Bool.false_eq_true, if_false]
  congr 1
  rw [List.sum_replicate, List.length_replicate, nsmul_eq_mul]
  have hn : (n : Rat) ≠ 0 := Nat.cast_ne_zero.mpr (by omega)
  field_simp

/-- A constant series has zero squared deviation from its mean. -/
theorem sqDevSum_replicate (c : Rat) (n : Nat) (h : 1 ≤ n) :
    sqDevSum (List.replicate n c) = 0 := by
  unfold sqDevSum
  rw [series_mean_replicate c n h]
  show (List.map (fun x => (x - c) ^ 2) (List.replicate n c)).sum = 0
  rw [List.map_replicate, List.sum_replicate]
  simp

/-- C4 counterexample: the statistics summariser applied to the empty
premium sequence returns normally with null statistics (pandas `NaN`,
and the explicit `None` for `current`) instead of failing with
`EmptySeries`. -/
theorem empty_series_counterexample :
    (calculate_statistics []).current = none ∧
    (calculate_statistics []).median = none ∧
    (calculate_statistics []).std = none :=
  ⟨rfl, rfl, rfl⟩

/-- C4 amended: the summariser is total: on an empty premium sequence it
returns a summary whose every statistic is null (`NaN`, `None` for
`current`) rather than aborting; `current` is null exactly on the empty
input. -/
theorem empty_series_returns_nulls :
    calculate_statistics [] =
      ⟨none, none, none, none, none, none, none, none⟩ ∧
    ∀ l : List Rat, (calculate_statistics l).current = none ↔ l = [] := by
  refine ⟨rfl, fun l => ?_⟩
  simp [calculate_statistics, Option.map_eq_none', List.getLast?_eq_none_iff]

/-- C7: the standard deviation uses the sample (`N - 1` denominator)
formula: every constant series of length at least two has standard
deviation exactly 0, and the two-point series `[0, 2]` has standard
deviation `sqrt 2` (the population formula would give 1), rounded to two
decimals. -/
theorem std_sample_formula (c : Rat) (n : Nat) (h : 2 ≤ n) :
    (calculate_statistics (List.replicate n c)).std = some 0 ∧
    (calculate_statistics [0, 2]).std = some (round2R (Real.sqrt 2)) := by
  constructor
  · show (seriesStd (List.replicate n c)).map round2R = some 0
    unfold seriesStd
    rw [List.length_replicate]
    rw [if_pos h]
    rw [sqDevSum_replicate c n (by omega)]
    norm_num [round2R_zero]
  · have hsq : sqDevSum [0, 2] = 2 := by norm_num [sqDevSum, seriesMean]
    show (seriesStd [0, 2]).map round2R = some (round2R (Real.sqrt 2))
    unfold seriesStd
    rw [hsq]
    norm_num

theorem std_sample_formula_witness :
    (calculate_statistics (List.replicate 10 2)).std = some 0 :=
  (std_sample_formula 2 10 (by norm_num)).1

/-- C8: the median and the 25th/75th percentiles interpolate linearly
between order statistics: on the premium sequence `[1, 2, 3, 4]` the
median is 2.5, the 25th percentile 1.75, the 75th percentile 3.25. -/
theorem median_quantiles_interpolated :
    (calculate_statistics [1, 2, 3, 4]).median = some (5 / 2) ∧
    (calculate_statistics [1, 2, 3, 4]).p25 = some (7 / 4) ∧
    (calculate_statistics [1, 2, 3, 4]).p75 = some (13 / 4) := by
  have hmed : seriesMedian [1, 2, 3, 4] = some (5 / 2) := by
    norm_num [seriesMedian, sortAsc, insertAsc]
  have h25 : seriesQuantile [1, 2, 3, 4] (1 / 4) = some (7 / 4) := by
    unfold seriesQuantile
    norm_num [sortAsc, insertAsc]
  have h75 : seriesQuantile [1, 2, 3, 4] (3 / 4) = some (13 / 4) := by
    unfold seriesQuantile
    norm_num [sortAsc, insertAsc, show Int.toNat 2 = 2 from rfl,
      show ([1, 2, 3, 4] : List Rat)[2] = 3 from rfl,
      show ([2, 3, 4] : List Rat)[2] = 4 from rfl]
  refine ⟨?_, ?_, ?_⟩
  · show (seriesMedian [1, 2, 3, 4]).map round2 = some (5 / 2)
    rw [hmed]
    norm_num [round2, pyRoundInt]
  · show (seriesQuantile [1, 2, 3, 4] (1 / 4)).map round2 = some (7 / 4)
    rw [h25]
    norm_num [round2, pyRoundInt]
  · show (seriesQuantile [1, 2, 3, 4] (3 / 4)).map round2 = some (13 / 4)
    rw [h75]
    norm_num [round2, pyRoundInt]

/-- C9: in the serialised JSON object every numeric sequence has the same
length and element order as `dates` (premiums, prices, NAVs and adjusted
iNAVs rounded to 2 decimals, the forex rates to 4), and `data_points`
equals the length of `dates`. -/
theorem json_output_aligned (df : List AlignedRecord) (stats : StatsSummary)
    (i : Nat) :
    (save_to_json df stats).premiums.length = (save_to_json df stats).dates.length ∧
    (save_to_json df stats).prices.length = (save_to_json df stats).dates.length ∧
    (save_to_json df stats).navs.length = (save_to_json df stats).dates.length ∧
    (save_to_json df stats).adjusted_inavs.length =
      (save_to_json df stats).dates.length ∧
    (save_to_json df stats).usdinr.length = (save_to_json df stats).dates.length ∧
    (save_to_json df stats).data_points = (save_to_json df stats).dates.length ∧
    (save_to_json df stats).dates[i]? = (df[i]?).map (fun r => r.trade_date) ∧
    (save_to_json df stats).premiums[i]? = (df[i]?).map (fun r => round2 r.premium) ∧
    (save_to_json df stats).prices[i]? = (df[i]?).map (fun r => round2 r.price) ∧
    (save_to_json df stats).navs[i]? = (df[i]?).map (fun r => round2 r.nav) ∧
    (save_to_json df stats).adjusted_inavs[i]? =
      (df[i]?).map (fun r => round2 r.adjusted_inav) ∧
    (save_to_json df stats).usdinr[i]? = (df[i]?).map (fun r => round4 r.usdinr) := by
  unfold save_to_json
  simp [List.getElem?_map]
